import Mathlib

/-!
# Verification of the curseforge-mcp-server credential/session core

Shallow embedding, in Lean 4, of the credential-tiered request router and
session/cookie lifecycle manager of the `curseforge-mcp-server` repository
(TypeScript).  The embedded functions are translated from the TypeScript
source files (`src/server.ts`, `src/clients/web-client.ts`,
`src/clients/cookie-extractor.ts`, `src/clients/upload-client.ts`,
`src/clients/curseforge-client.ts`, `src/tools/web-api.ts`,
`src/utils/types.ts`, `src/utils/helpers.ts`).

Modelling conventions:
* JavaScript strings are Lean `String`s (sequences of Unicode scalar values;
  the sources only ever index strings at ASCII positions, where JS UTF-16
  code-unit indexing and Lean character indexing agree).
* JavaScript exceptions are `Except`/`Option` results; a `try/catch` becomes
  a `match` on that result.
* The filesystem (the persisted session file) is explicit state: the file is
  `Option String` (`none` = file absent), directory existence a `Bool`.
* An HTTP exchange is modelled by passing the `HttpResponse` the upstream
  would return as an argument; request counting instruments how many
  requests a handler issues.
* JS `String.prototype` helpers (`split`, `trim`, `indexOf`, `slice`,
  `toUpperCase`, `startsWith`) are re-implemented over `List Char` with
  JS semantics, so that all definitions are executable and kernel-reducible.
-/

namespace CurseforgeMcp

/-! ## JS string primitives -/

/-- JS `String.prototype.split(sep)` for a one-character separator:
the (never empty) list of chunks between occurrences of `sep`. -/
def splitOnChar (sep : Char) : List Char → List (List Char)
  | [] => [[]]
  | c :: rest =>
      if c = sep then [] :: splitOnChar sep rest
      else
        match splitOnChar sep rest with
        | [] => [[c]]
        | seg :: segs => (c :: seg) :: segs

/-- The JS `String.prototype.trim` whitespace class (ECMAScript WhiteSpace /
LineTerminator), restricted to the code points that can realistically occur
here: space, tab, LF, CR, VT, FF, NBSP and the BOM. -/
def isJsWhitespace (c : Char) : Bool :=
  c = ' ' || c = '\t' || c = '\n' || c = '\r' ||
  c = Char.ofNat 0x0b || c = Char.ofNat 0x0c || c = Char.ofNat 0xa0 ||
  c = Char.ofNat 0xfeff

/-- JS `String.prototype.trim`. -/
def jsTrim (s : String) : String :=
  String.mk (((s.data.dropWhile isJsWhitespace).reverse.dropWhile
    isJsWhitespace).reverse)

/-- JS `String.prototype.indexOf` for a one-character needle: index of the
first occurrence, `none` for JS `-1`. -/
def jsIndexOf (c : Char) : List Char → Option Nat
  | [] => none
  | d :: rest => if d = c then some 0 else (jsIndexOf c rest).map (· + 1)

/-- JS `String.prototype.slice(0, n)` / truncation to the first `n`
characters. -/
def jsTake (n : Nat) (s : String) : String :=
  String.mk (s.data.take n)

/-- JS `String.prototype.toUpperCase` (ASCII range, as exercised by the
cookie names involved). -/
def jsToUpper (s : String) : String :=
  String.mk (s.data.map Char.toUpper)

/-- Does the list start with the given prefix of characters? -/
def startsWithList : List Char → List Char → Bool
  | [], _ => true
  | _ :: _, [] => false
  | a :: as, b :: bs => a = b && startsWithList as bs

/-- JS `String.prototype.startsWith`. -/
def jsStartsWith (s pre : String) : Bool :=
  startsWithList pre.data s.data

/-- Does `sub` occur as a contiguous substring of the list? -/
def hasSubstringList (sub : List Char) : List Char → Bool
  | [] => sub.isEmpty
  | c :: rest => startsWithList sub (c :: rest) || hasSubstringList sub rest

/-- JS `String.prototype.includes`. -/
def jsIncludes (s sub : String) : Bool :=
  hasSubstringList sub.data s.data

/-! ## Data model (`src/utils/types.ts`) -/

/-- One browser session cookie: `CookieEntry` from `src/utils/types.ts`
(`{name, value, domain, path}`). -/
structure CookieEntry where
  name : String
  value : String
  domain : String
  path : String
deriving Repr, DecidableEq

/-- A tool invocation result, `ToolResult` from `src/utils/types.ts`:
`text` is the single text block the helpers `success`/`error` produce,
`isError` the error marker (absent = `false`). -/
structure ToolResult where
  text : String
  isError : Bool
deriving Repr, DecidableEq

/-- `success(text)` from `src/utils/types.ts`. -/
def success (text : String) : ToolResult :=
  { text := text, isError := false }

/-- `error(text)` from `src/utils/types.ts`: prefixes `"Error: "` and sets
`isError`. -/
def error (text : String) : ToolResult :=
  { text := "Error: " ++ text, isError := true }

/-! ## Credential tier resolver (`src/config.ts`, `src/server.ts`) -/

/-- The three environment-sourced optional secrets of `Config`
(`src/config.ts`); a missing environment variable is the empty string
(`process.env.X || ""`). The path fields are not needed by any claim about
registration. -/
structure Config where
  curseforgeApiKey : String
  curseforgeAuthorToken : String
  curseforgeGameSlug : String
deriving Repr, DecidableEq

/-- The `CoreApiClient` constructor (`src/clients/curseforge-client.ts`):
throws iff the API key is empty, otherwise constructs the client (pure
field assignment). -/
def coreApiClientInit (config : Config) : Except String Unit :=
  if config.curseforgeApiKey = "" then
    .error "CURSEFORGE_API_KEY is required for Core API access"
  else .ok ()

/-- The `UploadApiClient` constructor (`src/clients/upload-client.ts`):
throws iff the author token is empty. -/
def uploadApiClientInit (config : Config) : Except String Unit :=
  if config.curseforgeAuthorToken = "" then
    .error "CURSEFORGE_AUTHOR_TOKEN is required for Upload API"
  else .ok ()

/-- Which tool groups `createServer` registered: the CFWidget public lookup
tools (`get_project`, `search_author`), the API-key catalog tools
(`search_mods` … `get_game_versions`), the author-token upload tools, and
the web (cookie-session) tools of `registerWebApiTools`. -/
structure RegisteredGroups where
  cfwidgetTools : Bool
  coreApiTools : Bool
  uploadTools : Bool
  webTools : Bool
deriving Repr, DecidableEq

/-- The registration decisions of `createServer` (`src/server.ts`):
`coreClient` is constructed (with the constructor error caught and the
client left `null`) only when the API key is set; `registerCoreApiTools`
always registers the CFWidget tools and registers the key-gated tools iff
`coreClient` is non-null; the upload tools are registered only when the
author token is set and the `UploadApiClient` constructor does not throw;
`registerWebApiTools` is called unconditionally. -/
def createServerGroups (config : Config) : RegisteredGroups :=
  let coreClient : Bool :=
    if config.curseforgeApiKey ≠ "" then
      match coreApiClientInit config with
      | .ok _ => true
      | .error _ => false
    else false
  let uploadRegistered : Bool :=
    if config.curseforgeAuthorToken ≠ "" then
      match uploadApiClientInit config with
      | .ok _ => true
      | .error _ => false
    else false
  { cfwidgetTools := true
    coreApiTools := coreClient
    uploadTools := uploadRegistered
    webTools := true }

/-- The registration output the claim "a capability group is enabled iff its
required secret is non-empty; with zero configured secrets only the
unauthenticated/public tool group is registered" predicts for a
configuration with no secrets: only the CFWidget public group. -/
def onlyPublicGroup : RegisteredGroups :=
  { cfwidgetTools := true, coreApiTools := false, uploadTools := false
    webTools := false }

/-! ## Cookie-string parsing (`WebClient.setCookiesFromString`) -/

/-- One trimmed segment of the cookie string, as treated inside the `.map`
callback of `WebClient.setCookiesFromString` (src/clients/web-client.ts):
`indexOf("=")` on the segment; `-1` (here `none`) yields `null`, otherwise a
`CookieEntry` whose name is the trimmed slice before the first `=` and whose
value is the trimmed slice after it, with the fixed domain
`".curseforge.com"` and path `"/"`. -/
def parseCookieSegment (c : String) : Option CookieEntry :=
  match jsIndexOf '=' c.data with
  | none => none
  | some eqIdx =>
      some { name := jsTrim (String.mk (c.data.take eqIdx))
             value := jsTrim (String.mk (c.data.drop (eqIdx + 1)))
             domain := ".curseforge.com"
             path := "/" }

/-- `WebClient.setCookiesFromString` (src/clients/web-client.ts), as the
pure list of entries it stores: split on `";"`, trim each segment, drop
empty segments (`filter(Boolean)`), map each remaining segment through the
`=` splitter and drop the `null`s (`filter(c => c !== null)`). -/
def setCookiesFromString (cookieString : String) : List CookieEntry :=
  ((((splitOnChar ';' cookieString.data).map String.mk).map jsTrim).filter
      (fun c => c ≠ "")).filterMap parseCookieSegment

/-! Specification-side restatement of C2, to compare against
`setCookiesFromString`: the trimmed semicolon-separated segments, of which
exactly the well-formed ones (those containing a `=` separator) are kept, in
order, as entries splitting at the first `=`. -/

/-- The trimmed segments of the cookie string, in order. -/
def cookieSegments (s : String) : List String :=
  ((splitOnChar ';' s.data).map String.mk).map jsTrim

/-- The Cookie Entry a well-formed `name=value` segment denotes: name is
everything before the first `=` (trimmed), value everything after it
(trimmed), with the fixed default domain and path. -/
def entryOfSegment (seg : String) : CookieEntry :=
  { name := jsTrim (String.mk (seg.data.takeWhile (· ≠ '=')))
    value := jsTrim (String.mk ((seg.data.dropWhile (· ≠ '=')).drop 1))
    domain := ".curseforge.com"
    path := "/" }

/-- The claim's description of the parse: exactly the well-formed segments
(those with an `=`), in their original order; segments lacking `=` are
dropped silently. -/
def specParseCookieString (s : String) : List CookieEntry :=
  (cookieSegments s).filterMap
    (fun seg => if '=' ∈ seg.data then some (entryOfSegment seg) else none)

theorem jsIndexOf_eq_none_iff (c : Char) (l : List Char) :
    jsIndexOf c l = none ↔ c ∉ l := by
  induction l with
  | nil => simp [jsIndexOf]
  | cons d rest ih =>
      by_cases h : d = c
      · simp [jsIndexOf, h]
      · simp only [jsIndexOf, if_neg h, Option.map_eq_none', ih, List.mem_cons]
        constructor
        · intro hn hc
          rcases hc with hc | hc
          · exact h hc.symm
          · exact hn hc
        · intro hn hc
          exact hn (Or.inr hc)

theorem jsIndexOf_take_drop (c : Char) (l : List Char) (i : Nat)
    (h : jsIndexOf c l = some i) :
    l.take i = l.takeWhile (· ≠ c) ∧
      l.drop (i + 1) = (l.dropWhile (· ≠ c)).drop 1 := by
  induction l generalizing i with
  | nil => simp [jsIndexOf] at h
  | cons d rest ih =>
      by_cases hd : d = c
      · simp [jsIndexOf, hd] at h
        subst hd
        simp [← h, List.takeWhile_cons, List.dropWhile_cons]
      · simp [jsIndexOf, hd] at h
        obtain ⟨j, hj, rfl⟩ := h
        have hrec := ih j hj
        simp [List.takeWhile_cons, List.dropWhile_cons, hd, hrec.1, hrec.2]

theorem parseCookieSegment_eq_spec (seg : String) :
    parseCookieSegment seg =
      if '=' ∈ seg.data then some (entryOfSegment seg) else none := by
  rcases h : jsIndexOf '=' seg.data with _ | i
  · rw [jsIndexOf_eq_none_iff] at h
    unfold parseCookieSegment
    rw [(jsIndexOf_eq_none_iff '=' seg.data).mpr h, if_neg h]
  · have hmem : '=' ∈ seg.data := by
      by_contra hmem
      rw [← jsIndexOf_eq_none_iff] at hmem
      simp [hmem] at h
    have h2 := jsIndexOf_take_drop '=' seg.data i h
    unfold parseCookieSegment
    rw [h]
    dsimp only
    rw [if_pos hmem]
    unfold entryOfSegment
    rw [h2.1, h2.2]

theorem filterMap_parse_filter (l : List String) :
    (l.filter (fun c => c ≠ "")).filterMap parseCookieSegment =
      l.filterMap parseCookieSegment := by
  induction l with
  | nil => rfl
  | cons x rest ih =>
      by_cases hx : x = ""
      · have hfil : List.filter (fun c => c ≠ "") (x :: rest) =
            List.filter (fun c => c ≠ "") rest := by
          simp [List.filter_cons, hx]
        have h0 : parseCookieSegment x = none := by rw [hx]; rfl
        rw [hfil, ih, List.filterMap_cons, h0]
      · have hfil : List.filter (fun c => c ≠ "") (x :: rest) =
            x :: List.filter (fun c => c ≠ "") rest := by
          simp [List.filter_cons, hx]
        rw [hfil, List.filterMap_cons, List.filterMap_cons, ih]

theorem setCookiesFromString_eq_spec (s : String) :
    setCookiesFromString s = specParseCookieString s := by
  unfold setCookiesFromString specParseCookieString cookieSegments
  rw [filterMap_parse_filter]
  exact List.filterMap_congr (fun seg _ => parseCookieSegment_eq_spec seg)

/-! ## Anti-forgery token lookup (`WebClient.getXsrfToken`) -/

/-- The name test inside `WebClient.getXsrfToken`:
`c.name.toUpperCase() === "XSRF-TOKEN" || c.name.toUpperCase() === "X-XSRF-TOKEN"`. -/
def isXsrfName (n : String) : Bool :=
  jsToUpper n = "XSRF-TOKEN" || jsToUpper n = "X-XSRF-TOKEN"

/-- `WebClient.getXsrfToken` (src/clients/web-client.ts): `Array.find` over
the stored cookies with the alias-name test, returning the value of the
first match (`undefined`, here `none`, when there is none). -/
def getXsrfToken (cookies : List CookieEntry) : Option String :=
  (cookies.find? (fun c => isXsrfName c.name)).map (·.value)


/-! ## The persisted session file (`WebClient.saveCookies` / `loadCookies`)

`saveCookies` writes `JSON.stringify(this.cookies, null, 2)`;
`loadCookies` reads the file and `JSON.parse`s it (missing file: the cookie
array stays empty; parse failure: caught, cookie array set to empty).

`serializeCookieEntry`/`serializeCookies` reproduce the exact text
`JSON.stringify` emits for a `CookieEntry[]` with 2-space indentation,
including its string-escaping rules (`"` , `\\`, the short control escapes
`\b \t \n \f \r`, and `\u00xx` for the remaining control characters;
all other characters are emitted literally).

`parseCookiesJson` models `JSON.parse` restricted to the document family
this server itself writes (an array of four-key objects in the fixed key
order, arbitrary interleaving whitespace, full JSON string unescaping):
on any other input it reports failure (`none`), which the embedding treats
as the caught `JSON.parse` exception. -/

/-- Lowercase hex digit, as `JSON.stringify` emits in `\u00xx` escapes. -/
def hexDigitChar (n : Nat) : Char :=
  if n < 10 then Char.ofNat (48 + n) else Char.ofNat (87 + n)

/-- The JSON escape of one character (ECMA-262 `QuoteJSONString`). -/
def escapeJsonChar (c : Char) : List Char :=
  if c = '"' then ['\\', '"']
  else if c = '\\' then ['\\', '\\']
  else if c = Char.ofNat 8 then ['\\', 'b']
  else if c = '\t' then ['\\', 't']
  else if c = '\n' then ['\\', 'n']
  else if c = Char.ofNat 12 then ['\\', 'f']
  else if c = '\r' then ['\\', 'r']
  else if c.toNat < 32 then
    ['\\', 'u', '0', '0', hexDigitChar (c.toNat / 16), hexDigitChar (c.toNat % 16)]
  else [c]

/-- A JSON string literal: quote, escaped characters, quote. -/
def quoteJson (s : String) : List Char :=
  '"' :: (s.data.map escapeJsonChar).flatten ++ ['"']

/-- The text `JSON.stringify(e, null, 2)` produces for one entry at array
nesting depth 1 (keys in declaration order `name`, `value`, `domain`,
`path`). -/
def serializeCookieEntry (e : CookieEntry) : List Char :=
  "  \x7b\n    ".data ++ quoteJson "name" ++ ": ".data ++ quoteJson e.name ++
  ",\n    ".data ++ quoteJson "value" ++ ": ".data ++ quoteJson e.value ++
  ",\n    ".data ++ quoteJson "domain" ++ ": ".data ++ quoteJson e.domain ++
  ",\n    ".data ++ quoteJson "path" ++ ": ".data ++ quoteJson e.path ++
  "\n  \x7d".data

/-- The `",\n"` join `JSON.stringify` places between array elements at
indent 2. -/
def joinWithCommaNl : List (List Char) → List Char
  | [] => []
  | [x] => x
  | x :: xs => x ++ ',' :: '\n' :: joinWithCommaNl xs

/-- `JSON.stringify(cookies, null, 2)`: `"[]"` for the empty array,
otherwise the bracketed, newline-framed join of the serialized entries. -/
def serializeCookies (l : List CookieEntry) : String :=
  match l with
  | [] => "[]"
  | _ => String.mk ("[\n".data ++ joinWithCommaNl (l.map serializeCookieEntry) ++
      "\n]".data)

/-- JSON insignificant whitespace (space, tab, LF, CR). -/
def isJsonWs (c : Char) : Bool :=
  c = ' ' || c = '\t' || c = '\n' || c = '\r'

def skipJsonWs (l : List Char) : List Char :=
  l.dropWhile isJsonWs

def parseHexDigitVal (c : Char) : Option Nat :=
  if '0' ≤ c ∧ c ≤ '9' then some (c.toNat - 48)
  else if 'a' ≤ c ∧ c ≤ 'f' then some (c.toNat - 87)
  else if 'A' ≤ c ∧ c ≤ 'F' then some (c.toNat - 55)
  else none

def decodeShortEscape (c : Char) : Option Char :=
  if c = '"' then some '"'
  else if c = '\\' then some '\\'
  else if c = '/' then some '/'
  else if c = 'b' then some (Char.ofNat 8)
  else if c = 'f' then some (Char.ofNat 12)
  else if c = 'n' then some '\n'
  else if c = 'r' then some '\r'
  else if c = 't' then some '\t'
  else none

/-- JSON string-literal body (after the opening quote): ordinary characters,
`\`-escapes, `\uXXXX` escapes (restricted to Unicode scalar values: JSON
texts written by this server never contain surrogate escapes), terminated by
the closing quote.  The fuel argument bounds recursion depth; one unit is
spent per decoded character, so any fuel exceeding the produced length
suffices. -/
def parseJsonStringBody : Nat → List Char → Option (List Char × List Char)
  | 0, _ => none
  | _ + 1, [] => none
  | fuel + 1, c :: rest =>
      if c = '"' then some ([], rest)
      else if c = '\\' then
        match rest with
        | [] => none
        | e :: rest2 =>
            if e = 'u' then
              match rest2 with
              | h1 :: h2 :: h3 :: h4 :: rest3 =>
                  match parseHexDigitVal h1, parseHexDigitVal h2,
                      parseHexDigitVal h3, parseHexDigitVal h4 with
                  | some v1, some v2, some v3, some v4 =>
                      let n := ((v1 * 16 + v2) * 16 + v3) * 16 + v4
                      if n < 0xd800 then
                        (parseJsonStringBody fuel rest3).map
                          (fun p => (Char.ofNat n :: p.1, p.2))
                      else if 0xdfff < n then
                        (parseJsonStringBody fuel rest3).map
                          (fun p => (Char.ofNat n :: p.1, p.2))
                      else none
                  | _, _, _, _ => none
              | _ => none
            else
              match decodeShortEscape e with
              | none => none
              | some d =>
                  (parseJsonStringBody fuel rest2).map
                    (fun p => (d :: p.1, p.2))
      else if c.toNat < 32 then none
      else (parseJsonStringBody fuel rest).map (fun p => (c :: p.1, p.2))

/-- Skip whitespace, then demand one specific punctuation character. -/
def parseExactChar (c : Char) (l : List Char) : Option (List Char) :=
  match skipJsonWs l with
  | d :: rest => if d = c then some rest else none
  | [] => none

/-- Skip whitespace, then parse one JSON string literal. -/
def parseJsonStringTok (l : List Char) : Option (List Char × List Char) :=
  match skipJsonWs l with
  | d :: rest => if d = '"' then parseJsonStringBody (rest.length + 1) rest else none
  | [] => none

/-- Parse a JSON string literal and require it to spell `key`. -/
def parseKey (key : String) (l : List Char) : Option (List Char) :=
  match parseJsonStringTok l with
  | some (cs, rest) => if cs = key.data then some rest else none
  | none => none

/-- One `"key": "value"` member: the key, the colon, the string value. -/
def parseFieldAfter (key : String) (l : List Char) : Option (List Char × List Char) :=
  match parseKey key l with
  | none => none
  | some l1 =>
      match parseExactChar ':' l1 with
      | none => none
      | some l2 => parseJsonStringTok l2

/-- One cookie object `{"name": …, "value": …, "domain": …, "path": …}`. -/
def parseCookieObject (l : List Char) : Option (CookieEntry × List Char) :=
  (parseExactChar '{' l).bind fun l0 =>
  (parseFieldAfter "name" l0).bind fun nl =>
  (parseExactChar ',' nl.2).bind fun l1 =>
  (parseFieldAfter "value" l1).bind fun vl =>
  (parseExactChar ',' vl.2).bind fun l2 =>
  (parseFieldAfter "domain" l2).bind fun dl =>
  (parseExactChar ',' dl.2).bind fun l3 =>
  (parseFieldAfter "path" l3).bind fun pl =>
  (parseExactChar '}' pl.2).map fun rest =>
  (⟨String.mk nl.1, String.mk vl.1, String.mk dl.1, String.mk pl.1⟩, rest)

/-- One or more comma-separated cookie objects followed by the closing `]`. -/
def parseCookieList : Nat → List Char → Option (List CookieEntry × List Char)
  | 0, _ => none
  | fuel + 1, l =>
      match parseCookieObject l with
      | none => none
      | some (e, l1) =>
          match skipJsonWs l1 with
          | [] => none
          | c :: rest =>
              if c = ',' then
                match parseCookieList fuel rest with
                | none => none
                | some (es, r) => some (e :: es, r)
              else if c = ']' then some ([e], rest)
              else none

/-- `JSON.parse` of a whole session document (restricted to the cookie-array
shape): the bracketed list with only trailing whitespace allowed after it;
anything else is a parse failure. -/
def parseCookiesJson (s : String) : Option (List CookieEntry) :=
  match parseExactChar '[' s.data with
  | none => none
  | some l =>
      if (skipJsonWs l).head? = some ']' then
        if (skipJsonWs ((skipJsonWs l).drop 1)).isEmpty then some [] else none
      else
        match parseCookieList (s.data.length + 1) l with
        | none => none
        | some (es, rest2) => if (skipJsonWs rest2).isEmpty then some es else none

/-! ### Round-trip: `parseCookiesJson ∘ serializeCookies = some` -/

theorem parseHexDigitVal_hexDigitChar :
    ∀ m < 16, parseHexDigitVal (hexDigitChar m) = some m := by decide

theorem parse_escape_body (l : List Char) (rest : List Char) (fuel : Nat)
    (hfuel : l.length < fuel) :
    parseJsonStringBody fuel ((l.map escapeJsonChar).flatten ++ '"' :: rest) =
      some (l, rest) := by
  induction l generalizing fuel with
  | nil =>
      match fuel, hfuel with
      | f + 1, _ => simp [parseJsonStringBody]
  | cons c cs ih =>
      match fuel, hfuel with
      | f + 1, hfuel =>
        have hf : cs.length < f := by simpa using hfuel
        have hrec := ih f hf
        simp only [List.map_cons, List.flatten, List.append_assoc]
        by_cases h1 : c = '"'
        · subst h1
          simp [escapeJsonChar, parseJsonStringBody, decodeShortEscape, hrec]
        · by_cases h2 : c = '\\'
          · subst h2
            simp [escapeJsonChar, parseJsonStringBody, decodeShortEscape, hrec]
          · by_cases h3 : c = Char.ofNat 8
            · subst h3
              simp [escapeJsonChar, parseJsonStringBody, decodeShortEscape, hrec]
            · by_cases h4 : c = '\t'
              · subst h4
                simp [escapeJsonChar, parseJsonStringBody, decodeShortEscape, hrec]
              · by_cases h5 : c = '\n'
                · subst h5
                  simp [escapeJsonChar, parseJsonStringBody, decodeShortEscape, hrec]
                · by_cases h6 : c = Char.ofNat 12
                  · subst h6
                    simp [escapeJsonChar, parseJsonStringBody, decodeShortEscape, hrec]
                  · by_cases h7 : c = '\r'
                    · subst h7
                      simp [escapeJsonChar, parseJsonStringBody, decodeShortEscape,
                        hrec]
                    · by_cases h8 : c.toNat < 32
                      · have hdiv : c.toNat / 16 < 16 := by omega
                        have hmod : c.toNat % 16 < 16 := Nat.mod_lt _ (by norm_num)
                        have e1 := parseHexDigitVal_hexDigitChar _ hdiv
                        have e2 := parseHexDigitVal_hexDigitChar _ hmod
                        have e0 : parseHexDigitVal '0' = some 0 := rfl
                        have hesc : escapeJsonChar c =
                            ['\\', 'u', '0', '0', hexDigitChar (c.toNat / 16),
                             hexDigitChar (c.toNat % 16)] := by
                          simp [escapeJsonChar, h1, h2, h3, h4, h5, h6, h7, h8]
                        have hn : ((0 * 16 + 0) * 16 + c.toNat / 16) * 16 +
                            c.toNat % 16 = c.toNat := by omega
                        rw [hesc]
                        simp only [List.cons_append, List.nil_append]
                        simp only [parseJsonStringBody, e0, e1, e2]
                        norm_num [hn, h8]
                        have hq : ('\\' : Char) ≠ '"' := by decide
                        have hn2 : c.toNat / 16 * 16 + c.toNat % 16 = c.toNat := by
                          omega
                        rw [if_neg hq, hn2, if_pos (by omega : c.toNat < 55296), hrec]
                        simp [Char.ofNat_toNat]
                      · simp [escapeJsonChar, h1, h2, h3, h4, h5, h6, h7, h8,
                          parseJsonStringBody, hrec]

theorem escape_length_le (l : List Char) :
    l.length ≤ ((l.map escapeJsonChar).flatten).length := by
  induction l with
  | nil => simp
  | cons c cs ih =>
      have h1 : 1 ≤ (escapeJsonChar c).length := by
        unfold escapeJsonChar
        repeat' split
        all_goals simp
      simp only [List.map_cons, List.flatten_cons, List.length_append,
        List.length_cons]
      omega

theorem parseJsonStringTok_quote (s : String) (rest : List Char) :
    parseJsonStringTok (quoteJson s ++ rest) = some (s.data, rest) := by
  have hq : quoteJson s ++ rest =
      '"' :: ((s.data.map escapeJsonChar).flatten ++ '"' :: rest) := by
    simp [quoteJson]
  rw [hq]
  have hnw : skipJsonWs ('"' :: ((s.data.map escapeJsonChar).flatten ++ '"' :: rest)) =
      '"' :: ((s.data.map escapeJsonChar).flatten ++ '"' :: rest) := rfl
  unfold parseJsonStringTok
  rw [hnw]
  dsimp only
  rw [if_pos rfl]
  apply parse_escape_body
  have := escape_length_le s.data
  simp only [List.length_append, List.length_cons]
  omega

theorem parseJsonStringTok_ws (c : Char) (l : List Char) (h : isJsonWs c = true) :
    parseJsonStringTok (c :: l) = parseJsonStringTok l := by
  unfold parseJsonStringTok skipJsonWs
  rw [List.dropWhile_cons, if_pos h]

theorem parseExactChar_ws (c w : Char) (l : List Char) (h : isJsonWs w = true) :
    parseExactChar c (w :: l) = parseExactChar c l := by
  unfold parseExactChar skipJsonWs
  rw [List.dropWhile_cons, if_pos h]

theorem parseExactChar_head (c : Char) (l : List Char) (h : isJsonWs c = false) :
    parseExactChar c (c :: l) = some l := by
  unfold parseExactChar skipJsonWs
  rw [List.dropWhile_cons, if_neg (by simp [h])]
  dsimp only
  rw [if_pos rfl]

theorem parseKey_quote (key : String) (rest : List Char) :
    parseKey key (quoteJson key ++ rest) = some rest := by
  unfold parseKey
  rw [parseJsonStringTok_quote]
  simp

theorem parseKey_ws (key : String) (w : Char) (l : List Char) (h : isJsonWs w = true) :
    parseKey key (w :: l) = parseKey key l := by
  unfold parseKey
  rw [parseJsonStringTok_ws _ _ h]

theorem parseFieldAfter_ws (key : String) (w : Char) (l : List Char)
    (h : isJsonWs w = true) :
    parseFieldAfter key (w :: l) = parseFieldAfter key l := by
  unfold parseFieldAfter
  rw [parseKey_ws _ _ _ h]

theorem parseFieldAfter_quote (key s : String) (rest : List Char) :
    parseFieldAfter key (quoteJson key ++ (':' :: ' ' :: (quoteJson s ++ rest))) =
      some (s.data, rest) := by
  unfold parseFieldAfter
  rw [parseKey_quote]
  dsimp only
  rw [parseExactChar_head _ _ (by rfl : isJsonWs ':' = false)]
  dsimp only
  rw [parseJsonStringTok_ws _ _ (by rfl : isJsonWs ' ' = true)]
  rw [parseJsonStringTok_quote]

theorem ws_space : isJsonWs ' ' = true := rfl
theorem ws_nl : isJsonWs '\n' = true := rfl
theorem nws_lcurl : isJsonWs '{' = false := rfl
theorem nws_comma : isJsonWs ',' = false := rfl
theorem nws_rcurl : isJsonWs '}' = false := rfl

theorem parse_serializeEntry (e : CookieEntry) (tail : List Char) :
    parseCookieObject (serializeCookieEntry e ++ tail) = some (e, tail) := by
  obtain ⟨n, v, d, p⟩ := e
  have d1 : ("  \x7b\n    " : String).data =
      [' ', ' ', '{', '\n', ' ', ' ', ' ', ' '] := rfl
  have d2 : (": " : String).data = [':', ' '] := rfl
  have d3 : (",\n    " : String).data = [',', '\n', ' ', ' ', ' ', ' '] := rfl
  have d4 : ("\n  \x7d" : String).data = ['\n', ' ', ' ', '}'] := rfl
  simp only [serializeCookieEntry, d1, d2, d3, d4, List.cons_append,
    List.append_assoc, List.nil_append]
  simp only [parseCookieObject, parseExactChar_ws, parseExactChar_head,
    parseFieldAfter_ws, parseFieldAfter_quote,
    ws_space, ws_nl, nws_lcurl, nws_comma, nws_rcurl, Option.some_bind,
    Option.map_some']

theorem parseCookieObject_ws (w : Char) (l : List Char) (h : isJsonWs w = true) :
    parseCookieObject (w :: l) = parseCookieObject l := by
  unfold parseCookieObject
  rw [parseExactChar_ws _ _ _ h]

theorem parseCookieList_ws (fuel : Nat) (w : Char) (l : List Char)
    (h : isJsonWs w = true) :
    parseCookieList fuel (w :: l) = parseCookieList fuel l := by
  cases fuel with
  | zero => rfl
  | succ f =>
      unfold parseCookieList
      rw [parseCookieObject_ws _ _ h]

theorem skipJsonWs_cons_ws (c : Char) (l : List Char) (h : isJsonWs c = true) :
    skipJsonWs (c :: l) = skipJsonWs l := by
  unfold skipJsonWs
  rw [List.dropWhile_cons, if_pos h]

theorem skipJsonWs_cons_nws (c : Char) (l : List Char) (h : isJsonWs c = false) :
    skipJsonWs (c :: l) = c :: l := by
  unfold skipJsonWs
  rw [List.dropWhile_cons, if_neg (by simp [h])]

theorem parse_list_serialized (es : List CookieEntry) (fuel : Nat) (rest : List Char)
    (hne : es ≠ []) (hfuel : es.length < fuel) :
    parseCookieList fuel
        (joinWithCommaNl (es.map serializeCookieEntry) ++ '\n' :: ']' :: rest) =
      some (es, rest) := by
  induction es generalizing fuel with
  | nil => exact absurd rfl hne
  | cons e es' ih =>
      match fuel, hfuel with
      | f + 1, hfuel =>
        cases es' with
        | nil =>
            show parseCookieList (f + 1)
              (serializeCookieEntry e ++ '\n' :: ']' :: rest) = some ([e], rest)
            unfold parseCookieList
            rw [parse_serializeEntry]
            dsimp only
            rw [skipJsonWs_cons_ws _ _ (by rfl : isJsonWs '\n' = true),
              skipJsonWs_cons_nws _ _ (by rfl : isJsonWs ']' = false)]
            dsimp only
            rw [if_neg (by decide : ¬ (']' : Char) = ','), if_pos rfl]
        | cons e2 es'' =>
            have hjoin : joinWithCommaNl ((e :: e2 :: es'').map serializeCookieEntry) =
                serializeCookieEntry e ++ ',' :: '\n' ::
                  joinWithCommaNl ((e2 :: es'').map serializeCookieEntry) := rfl
            rw [hjoin]
            unfold parseCookieList
            rw [List.append_assoc, parse_serializeEntry]
            dsimp only
            simp only [List.cons_append]
            rw [skipJsonWs_cons_nws _ _ (by rfl : isJsonWs ',' = false)]
            have hf : (e2 :: es'').length < f := by
              simp only [List.length_cons] at hfuel ⊢
              omega
            dsimp only
            rw [if_pos rfl]
            rw [parseCookieList_ws _ _ _ (by rfl : isJsonWs '\n' = true)]
            rw [ih f (by intro hcontra; cases hcontra) hf]

theorem serializeEntry_length_pos (e : CookieEntry) :
    1 ≤ (serializeCookieEntry e).length := by
  have h8 : ("  \x7b\n    " : String).data.length = 8 := rfl
  simp only [serializeCookieEntry, List.length_append, h8]
  omega

theorem join_length_ge (es : List CookieEntry) :
    es.length ≤ (joinWithCommaNl (es.map serializeCookieEntry)).length := by
  induction es with
  | nil => simp [joinWithCommaNl]
  | cons e es' ih =>
      cases es' with
      | nil => simpa [joinWithCommaNl] using serializeEntry_length_pos e
      | cons e2 es'' =>
          have hj : joinWithCommaNl ((e :: e2 :: es'').map serializeCookieEntry) =
              serializeCookieEntry e ++ ',' :: '\n' ::
                joinWithCommaNl ((e2 :: es'').map serializeCookieEntry) := rfl
          rw [hj]
          have h1 := serializeEntry_length_pos e
          simp only [List.length_append, List.length_cons] at ih ⊢
          omega

theorem lit_entry_head : ("  \x7b\n    " : String).data =
    [' ', ' ', '{', '\n', ' ', ' ', ' ', ' '] := rfl

theorem serializeEntry_skip_head (e : CookieEntry) (r : List Char) :
    (skipJsonWs (serializeCookieEntry e ++ r)).head? = some '{' := by
  simp only [serializeCookieEntry, lit_entry_head, List.cons_append,
    List.append_assoc, List.nil_append]
  rw [skipJsonWs_cons_ws _ _ (by rfl : isJsonWs ' ' = true),
    skipJsonWs_cons_ws _ _ (by rfl : isJsonWs ' ' = true),
    skipJsonWs_cons_nws _ _ (by rfl : isJsonWs '{' = false)]
  rfl

theorem parse_serializeCookies (l : List CookieEntry) :
    parseCookiesJson (serializeCookies l) = some l := by
  cases l with
  | nil => rfl
  | cons e es =>
      have hdata : (serializeCookies (e :: es)).data =
          '[' :: '\n' :: (joinWithCommaNl ((e :: es).map serializeCookieEntry) ++
            '\n' :: ']' :: []) := by
        show ("[\n".data ++ joinWithCommaNl ((e :: es).map serializeCookieEntry) ++
          "\n]".data) = _
        simp
      have hlen : (e :: es).length < (serializeCookies (e :: es)).data.length + 1 := by
        rw [hdata]
        have := join_length_ge (e :: es)
        simp only [List.length_cons, List.length_append] at this ⊢
        omega
      have hjoinhead : ∀ r : List Char,
          (skipJsonWs (joinWithCommaNl ((e :: es).map serializeCookieEntry) ++
            r)).head? = some '{' := by
        intro r
        cases es with
        | nil =>
            show (skipJsonWs (serializeCookieEntry e ++ r)).head? = some '{'
            exact serializeEntry_skip_head e r
        | cons e2 es' =>
            show (skipJsonWs ((serializeCookieEntry e ++ ',' :: '\n' ::
              joinWithCommaNl ((e2 :: es').map serializeCookieEntry)) ++ r)).head? =
                some '{'
            rw [List.append_assoc]
            exact serializeEntry_skip_head e _
      unfold parseCookiesJson
      rw [hdata]
      rw [parseExactChar_head _ _ (by rfl : isJsonWs '[' = false)]
      dsimp only
      rw [skipJsonWs_cons_ws _ _ (by rfl : isJsonWs '\n' = true)]
      rw [if_neg (by rw [hjoinhead]; decide)]
      rw [parseCookieList_ws _ _ _ (by rfl : isJsonWs '\n' = true)]
      rw [parse_list_serialized (e :: es) _ [] (by intro hc; cases hc)
        (by rw [hdata] at hlen; simpa using hlen)]
      rfl


/-! ## WebClient state and persistence (`src/clients/web-client.ts`) -/

/-- The mutable state a `WebClient` owns together with its filesystem
environment: the in-memory Cookie Set, the contents of the session file at
`config.cookiesPath` (`none` = the file does not exist), and whether the
containing `.auth` directory exists. -/
structure WebClientState where
  cookies : List CookieEntry
  sessionFile : Option String
  authDirExists : Bool
deriving Repr, DecidableEq

/-- `WebClient.loadCookies`: if the session file exists, read it and
`JSON.parse` it; a parse failure is caught and leaves the empty set; a
missing file leaves the field at its initializer `[]`.  Total: never
throws. -/
def loadCookies (file : Option String) : List CookieEntry :=
  match file with
  | none => []
  | some data => (parseCookiesJson data).getD []

/-- `WebClient.saveCookies`: create the directory if absent, then overwrite
the session file in full with `JSON.stringify(this.cookies, null, 2)`. -/
def saveCookies (st : WebClientState) : WebClientState :=
  { st with authDirExists := true
            sessionFile := some (serializeCookies st.cookies) }

/-- `WebClient.setCookies`: replace the Cookie Set wholesale, then persist. -/
def setCookies (st : WebClientState) (cookies : List CookieEntry) : WebClientState :=
  saveCookies { st with cookies := cookies }

/-- `WebClient.setCookiesFromString`: parse the raw string, replace the
Cookie Set with the result, then persist. -/
def setCookiesFromStringState (st : WebClientState) (raw : String) : WebClientState :=
  saveCookies { st with cookies := setCookiesFromString raw }

/-- `WebClient.hasCookies`: `this.cookies.length > 0`. -/
def hasCookies (cookies : List CookieEntry) : Bool :=
  decide (0 < cookies.length)

/-! ## Browser cookie extraction (`src/clients/cookie-extractor.ts`) -/

/-- A raw cookie record as returned by the `@rookie-rs/api` browser readers
(`CookieObject`): the four fields `toCookieEntries` projects, plus flags the
extractor ignores. -/
structure CookieObject where
  name : String
  value : String
  domain : String
  path : String
  secure : Bool
  httpOnly : Bool
deriving Repr, DecidableEq

/-- `toCookieEntries` (src/clients/cookie-extractor.ts): project each raw
browser cookie onto the four persisted fields. -/
def toCookieEntries (raw : List CookieObject) : List CookieEntry :=
  raw.map (fun c => { name := c.name, value := c.value
                      domain := c.domain, path := c.path })

/-- `ExtractionResult` (src/clients/cookie-extractor.ts): browser name,
extracted entries, optional failure description. -/
structure ExtractionResult where
  browser : String
  cookies : List CookieEntry
  error : Option String
deriving Repr, DecidableEq

/-- One provider in the fixed browser list: its display name paired with the
outcome of calling its reader on the CurseForge domain filter — either the
raw cookie list it returns or the exception it throws. -/
def BrowserProvider : Type := String × Except String (List CookieObject)

/-- The `for (const [name, fn] of browsers)` loop of
`CookieExtractor.extractCookies`: call each provider in order inside
`try/catch`; a throw falls through to the next browser, a non-empty result
stops the loop with that browser's name and converted cookies, an empty
result also falls through; when the list is exhausted, report the fixed
no-cookie failure. -/
def extractFromBrowsers : List (String × Except String (List CookieObject)) →
    ExtractionResult
  | [] => { browser := "none", cookies := []
            error := some "No browser had curseforge.com cookies" }
  | (name, outcome) :: rest =>
      match outcome with
      | .error _ => extractFromBrowsers rest
      | .ok raw =>
          if 0 < raw.length then
            { browser := name, cookies := toCookieEntries raw, error := none }
          else extractFromBrowsers rest

/-- `CookieExtractor.extractCookies`: the dynamic `import("@rookie-rs/api")`
is tried first; on failure the fixed unavailability message is returned,
otherwise the browser loop runs.  Total: never throws. -/
def extractCookies (importOk : Bool)
    (browsers : List (String × Except String (List CookieObject))) :
    ExtractionResult :=
  if importOk then extractFromBrowsers browsers
  else { browser := "none", cookies := []
         error := some ("@rookie-rs/api not available on this platform. " ++
           "Use cf_set_cookies to set cookies manually.") }

/-- `WebClient.autoExtractCookies`: run the extractor (its `Except`-free
type is the `try/catch` that makes the source function total); on a
non-empty result adopt the cookies, persist them, and report
`"Extracted N cookies from B"`; otherwise report the extractor's error
string, defaulting to `"No cookies found"`. -/
def autoExtractCookies (st : WebClientState) (result : ExtractionResult) :
    WebClientState × String :=
  if 0 < result.cookies.length then
    (saveCookies { st with cookies := result.cookies },
     "Extracted " ++ toString result.cookies.length ++ " cookies from " ++
       result.browser)
  else (st, result.error.getD "No cookies found")

/-! ## The web dispatcher (`WebClient.request`) and tool handlers
(`src/tools/web-api.ts`)

The network is modelled by passing, as an argument, the `HttpResponse` the
upstream would return for the handler's one request; the `Nat` paired with
each handler result counts the HTTP requests the handler issues (0 or 1 —
no handler retries).  The formatting applied to a successfully decoded JSON
payload (`data.data` traversal / `compact`) is abstracted as a `render`
argument: no claim depends on it. -/

/-- The response to a `fetch`: final URL, status, `content-type` header
value (empty when absent) and body text. -/
structure HttpResponse where
  url : String
  status : Nat
  contentType : String
  body : String
deriving Repr, DecidableEq

/-- WHATWG fetch `Response.ok`: status in the inclusive range 200–299. -/
def responseOk (res : HttpResponse) : Bool :=
  decide (200 ≤ res.status) && decide (res.status ≤ 299)

/-- The error text `WebClient.request` throws for a non-ok response:
`` `HTTP ${res.status}: ${url}${errorBody ? `\n${errorBody.slice(0, 500)}` : ""}` ``. -/
def httpErrorMessage (url : String) (res : HttpResponse) : String :=
  "HTTP " ++ toString res.status ++ ": " ++ url ++
    (if res.body ≠ "" then "\n" ++ jsTake 500 res.body else "")

/-- What `WebClient.request` resolves to on a 2xx response: the JSON body
(represented by its source text) when the `content-type` says JSON,
otherwise the raw text. -/
inductive FetchedBody where
  | jsonOf (text : String)
  | textOf (text : String)
deriving Repr, DecidableEq

/-- The decoded payload's underlying text. -/
def FetchedBody.raw : FetchedBody → String
  | .jsonOf t => t
  | .textOf t => t

/-- `WebClient.request` (src/clients/web-client.ts), given the response the
upstream returns for `url`: throw the descriptive error on non-2xx,
otherwise resolve the body according to its content type. -/
def webRequest (url : String) (res : HttpResponse) : Except String FetchedBody :=
  if responseOk res = false then .error (httpErrorMessage url res)
  else if jsIncludes res.contentType "application/json" then .ok (.jsonOf res.body)
  else .ok (.textOf res.body)

/-- `CF_BASE` (src/tools/web-api.ts). -/
def CF_BASE : String := "https://www.curseforge.com"

/-- `AUTHORS_API` (src/tools/web-api.ts). -/
def AUTHORS_API : String := "https://authors.curseforge.com/_api"

/-- `truncate(text)` from `src/utils/helpers.ts` with its default
`maxLen = 20000`. -/
def jsTruncate (text : String) : String :=
  if text.length ≤ 20000 then text
  else jsTake 20000 text ++ "\n... [truncated]"

/-- The guard result every session-requiring web tool returns when the
Cookie Set is empty. -/
def noSessionError : ToolResult :=
  error "No session cookies. Use cf_auto_extract_cookies first."

/-- The URL `get_comments` requests. -/
def commentsUrl (modId page pageSize : Int) : String :=
  CF_BASE ++ "/api/v1/mods/" ++ toString modId ++ "/comments?index=" ++
    toString ((page - 1) * pageSize) ++ "&pageSize=" ++ toString pageSize

/-- The `get_comments` handler: cookie guard (no request issued), then one
dispatched GET whose failure is caught into an `error` result. -/
def getCommentsTool (render : String → String) (modId page pageSize : Int)
    (cookies : List CookieEntry) (res : HttpResponse) : ToolResult × Nat :=
  if hasCookies cookies = false then (noSessionError, 0)
  else
    match webRequest (commentsUrl modId page pageSize) res with
    | .ok body => (success (render body.raw), 1)
    | .error e => (error ("get_comments: " ++ e), 1)

/-- The `post_comment` handler (the posted JSON body does not influence the
modelled result). -/
def postCommentTool (modId : Int) (commentText : String) (replyToId : Option Int)
    (cookies : List CookieEntry) (res : HttpResponse) : ToolResult × Nat :=
  if hasCookies cookies = false then (noSessionError, 0)
  else
    match webRequest (CF_BASE ++ "/api/v1/comments") res with
    | .ok _ => (success "Comment posted.", 1)
    | .error e => (error ("post_comment: " ++ e), 1)

/-- The `delete_comment` handler. -/
def deleteCommentTool (modId commentId : Int)
    (cookies : List CookieEntry) (res : HttpResponse) : ToolResult × Nat :=
  if hasCookies cookies = false then (noSessionError, 0)
  else
    match webRequest (CF_BASE ++ "/api/v1/comments/" ++ toString commentId) res with
    | .ok _ => (success ("Comment " ++ toString commentId ++ " deleted."), 1)
    | .error e => (error ("delete_comment: " ++ e), 1)

/-- The `get_project_settings` handler (`truncate(compact(data))` with
`compact∘decode` abstracted as `render`, `truncate` exact). -/
def getProjectSettingsTool (render : String → String) (projectId : Int)
    (cookies : List CookieEntry) (res : HttpResponse) : ToolResult × Nat :=
  if hasCookies cookies = false then (noSessionError, 0)
  else
    match webRequest (AUTHORS_API ++ "/projects/" ++ toString projectId) res with
    | .ok body => (success (jsTruncate (render body.raw)), 1)
    | .error e => (error ("get_project_settings: " ++ e), 1)

/-- The `update_project_description` handler. -/
def updateProjectDescriptionTool (projectId : Int) (description : String)
    (cookies : List CookieEntry) (res : HttpResponse) : ToolResult × Nat :=
  if hasCookies cookies = false then (noSessionError, 0)
  else
    match webRequest (AUTHORS_API ++ "/projects/description/" ++ toString projectId)
        res with
    | .ok _ => (success "Description updated.", 1)
    | .error e => (error ("update_project_description: " ++ e), 1)

/-- The HTTP methods `cf_fetch_page` accepts. -/
inductive HttpMethod where
  | GET | POST | PUT | DELETE
deriving Repr, DecidableEq

/-- The `cf_fetch_page` handler: no cookie guard; resolve the full URL, then
dispatch one request whatever the method; non-string (JSON) payloads go
through `compact` (abstracted as `render`), then `truncate`.  The optional
request body string is forwarded as given (its `JSON.parse` round-trip on
the request side carries no information the model needs). -/
def cfFetchPageTool (render : String → String) (url : String)
    (method : HttpMethod) (body : Option String)
    (cookies : List CookieEntry) (res : HttpResponse) : ToolResult × Nat :=
  let fullUrl := if jsStartsWith url "http" then url else CF_BASE ++ url
  match webRequest fullUrl res with
  | .ok fb =>
      (success (jsTruncate (match fb with
        | .textOf t => t
        | .jsonOf j => render j)), 1)
  | .error e => (error ("cf_fetch_page: " ++ e), 1)

/-! ## Upload/author client (`src/clients/upload-client.ts`) -/

/-- `UploadApiClient.getGameVersions`, given the response: non-ok throws
`` `Upload API error ${res.status} at ${res.url}` `` (no body excerpt);
ok resolves to the JSON payload (represented by its text). -/
def getGameVersionsRun (res : HttpResponse) : Except String String :=
  if responseOk res = false then
    .error ("Upload API error " ++ toString res.status ++ " at " ++ res.url)
  else .ok res.body

/-- `UploadApiClient.getGameVersionTypes`: identical failure shape. -/
def getGameVersionTypesRun (res : HttpResponse) : Except String String :=
  if responseOk res = false then
    .error ("Upload API error " ++ toString res.status ++ " at " ++ res.url)
  else .ok res.body

/-- `UploadApiClient.uploadFile`, given the response to its one multi-part
POST: non-ok reads the body in full and throws
`` `Upload failed (${res.status}): ${errorText}` `` (the whole body, no
truncation); ok resolves to the JSON payload. -/
def uploadFileRun (res : HttpResponse) : Except String String :=
  if responseOk res = false then
    .error ("Upload failed (" ++ toString res.status ++ "): " ++ res.body)
  else .ok res.body

/-- `uploadFile` as a trace over the upstream's response stream: the
function body contains a single `fetch` and no retry loop, so exactly one
request is issued and the result is determined by the stream's first
response. -/
def uploadFileSession (responses : Nat → HttpResponse) :
    Except String String × Nat :=
  (uploadFileRun (responses 0), 1)

/-! ## Browser-mediated dispatcher launch (claim C10)

Modelled from the spec: the browser-variant `WebClient`
(`src/clients/web-client.ts` in its Puppeteer form) imports
`./browser-client.js`, but `browser-client.ts` itself is not among the
repository's source files.  Following §4.3/§5 of the spec, the lazy launch
is a state machine `uninitialized → launching → ready` in which a first-use
caller either starts the one launch (creating the shared in-flight
initialization promise) or awaits the already-shared one, and completion of
the launch moves it to `ready`; `launches` counts launch attempts. -/

inductive BrowserPhase where
  | uninitialized | launching | ready
deriving Repr, DecidableEq

structure BrowserState where
  phase : BrowserPhase
  launches : Nat
deriving Repr, DecidableEq

def initialBrowserState : BrowserState :=
  { phase := .uninitialized, launches := 0 }

/-- A caller needing the browser: create the shared launch on first demand,
otherwise await the existing in-flight promise or reuse the ready session
(no second launch). -/
def ensureLaunched (st : BrowserState) : BrowserState :=
  match st.phase with
  | .uninitialized => { phase := .launching, launches := st.launches + 1 }
  | .launching => st
  | .ready => st

/-- The in-flight launch resolving. -/
def launchCompleted (st : BrowserState) : BrowserState :=
  match st.phase with
  | .launching => { st with phase := .ready }
  | _ => st

/-- The observable events of the launch protocol: a caller's first-use
request, or the shared launch completing. -/
inductive BrowserEvent where
  | request | complete
deriving Repr, DecidableEq

def browserStep (st : BrowserState) : BrowserEvent → BrowserState
  | .request => ensureLaunched st
  | .complete => launchCompleted st

/-- The state after an arbitrary interleaving of caller requests and launch
completion, from process start. -/
def runBrowser (events : List BrowserEvent) : BrowserState :=
  events.foldl browserStep initialBrowserState


/-! ## Claim theorems -/

theorem setCookiesFromString_domain_path (s : String) :
    ∀ e ∈ setCookiesFromString s, e.domain = ".curseforge.com" ∧ e.path = "/" := by
  intro e he
  rw [setCookiesFromString_eq_spec] at he
  unfold specParseCookieString at he
  rw [List.mem_filterMap] at he
  obtain ⟨seg, _, hseg⟩ := he
  by_cases h : '=' ∈ seg.data
  · rw [if_pos h] at hseg
    cases hseg
    exact ⟨rfl, rfl⟩
  · rw [if_neg h] at hseg
    cases hseg

/-- A configuration with no secrets at all. -/
def noSecretsConfig : Config :=
  { curseforgeApiKey := "", curseforgeAuthorToken := "", curseforgeGameSlug := "" }

/-- A configuration with only the public API key. -/
def apiKeyOnlyConfig : Config :=
  { curseforgeApiKey := "k", curseforgeAuthorToken := "", curseforgeGameSlug := "" }

/-- A configuration with both the API key and the author token. -/
def allSecretsConfig : Config :=
  { curseforgeApiKey := "k", curseforgeAuthorToken := "t", curseforgeGameSlug := "" }

/-- C1, counterexample to the claim as stated: with zero configured secrets
(`CURSEFORGE_API_KEY`, `CURSEFORGE_AUTHOR_TOKEN` empty, no cookies), the
resolver still registers the web tool group, so the registration output is
not "only the unauthenticated/public tool group". -/
theorem c1_counterexample :
    (createServerGroups noSecretsConfig).webTools = true ∧
    createServerGroups noSecretsConfig ≠ onlyPublicGroup := by decide

/-- C1 (amended): at startup the resolver registers the key-gated catalog
tools iff the API key is non-empty and the upload tools iff the author token
is non-empty, while the CFWidget public tools and the web tool group are
registered unconditionally (the web group regardless of any session
cookies; its session-requiring tools are instead guarded per call).  In
particular: with zero secrets the public and web groups; with the API key
additionally the catalog group; with all secrets all groups. -/
theorem c1_registration_matrix (config : Config) :
    createServerGroups config =
      { cfwidgetTools := true
        coreApiTools := decide (config.curseforgeApiKey ≠ "")
        uploadTools := decide (config.curseforgeAuthorToken ≠ "")
        webTools := true } ∧
    createServerGroups noSecretsConfig =
      { cfwidgetTools := true, coreApiTools := false, uploadTools := false
        webTools := true } ∧
    createServerGroups apiKeyOnlyConfig =
      { cfwidgetTools := true, coreApiTools := true, uploadTools := false
        webTools := true } ∧
    createServerGroups allSecretsConfig =
      { cfwidgetTools := true, coreApiTools := true, uploadTools := true
        webTools := true } := by
  refine ⟨?_, by decide, by decide, by decide⟩
  unfold createServerGroups coreApiClientInit uploadApiClientInit
  by_cases hk : config.curseforgeApiKey = "" <;>
    by_cases ht : config.curseforgeAuthorToken = "" <;>
      simp [hk, ht]

/-- C2: `setCookiesFromString` splits its input on semicolons and stores
exactly the well-formed `name=value` segments, in their original order, with
the fixed default domain `".curseforge.com"` and path `"/"`; segments
lacking an `=` are dropped silently; in particular
`"a=1; b=2; malformed; c=3"` yields exactly the entries for `a`, `b`, `c`
in order. -/
theorem c2_setCookiesFromString_wellFormed (s : String) :
    setCookiesFromString s = specParseCookieString s ∧
    (∀ e ∈ setCookiesFromString s, e.domain = ".curseforge.com" ∧ e.path = "/") ∧
    setCookiesFromString "a=1; b=2; malformed; c=3" =
      [{ name := "a", value := "1", domain := ".curseforge.com", path := "/" },
       { name := "b", value := "2", domain := ".curseforge.com", path := "/" },
       { name := "c", value := "3", domain := ".curseforge.com", path := "/" }] :=
  ⟨setCookiesFromString_eq_spec s, setCookiesFromString_domain_path s, by decide⟩

/-- Witness for C2 at a concrete input: the entry for `a` is produced and
carries the fixed domain and path. -/
theorem c2_setCookiesFromString_wellFormed_witness :
    ({ name := "a", value := "1", domain := ".curseforge.com", path := "/" } :
        CookieEntry) ∈ setCookiesFromString "a=1; b=2; malformed; c=3" ∧
    (({ name := "a", value := "1", domain := ".curseforge.com", path := "/" } :
        CookieEntry).domain = ".curseforge.com" ∧
     ({ name := "a", value := "1", domain := ".curseforge.com", path := "/" } :
        CookieEntry).path = "/") :=
  ⟨by decide,
   (c2_setCookiesFromString_wellFormed "a=1; b=2; malformed; c=3").2.1 _ (by decide)⟩

/-- C3: the anti-forgery lookup returns `none` exactly when no stored cookie
has an alias name (`XSRF-TOKEN`/`X-XSRF-TOKEN`, compared after
uppercasing), and whenever the cookie list decomposes as
`pre ++ c :: post` with no alias match in `pre` and `c` matching, it
returns `c`'s value — the first match in stored order,
deterministically. -/
theorem c3_getXsrfToken_first_match (cookies : List CookieEntry) :
    (getXsrfToken cookies = none ↔ ∀ c ∈ cookies, ¬ isXsrfName c.name) ∧
    (∀ pre c post, cookies = pre ++ c :: post →
      (∀ p ∈ pre, ¬ isXsrfName p.name) → isXsrfName c.name →
      getXsrfToken cookies = some c.value) := by
  constructor
  · unfold getXsrfToken
    rw [Option.map_eq_none', List.find?_eq_none]
  · intro pre c post heq hpre hc
    subst heq
    unfold getXsrfToken
    have hfind : List.find? (fun c => isXsrfName c.name) (pre ++ c :: post) =
        some c := by
      induction pre with
      | nil => simp [List.find?_cons, hc]
      | cons p ps ih =>
          have hp : ¬ isXsrfName p.name = true := hpre p (List.mem_cons_self p ps)
          simp only [List.cons_append, List.find?_cons]
          rw [Bool.not_eq_true] at hp
          rw [hp]
          exact ih (fun q hq => hpre q (List.mem_cons_of_mem p hq))
    rw [hfind]
    rfl

/-- Witness for C3: a mixed-case `Xsrf-Token` cookie sitting after an
unrelated cookie and before another alias is the one returned. -/
theorem c3_getXsrfToken_first_match_witness :
    getXsrfToken
      [{ name := "session", value := "s1", domain := ".curseforge.com", path := "/" },
       { name := "Xsrf-Token", value := "tok", domain := ".curseforge.com", path := "/" },
       { name := "XSRF-TOKEN", value := "other", domain := ".curseforge.com", path := "/" }] =
      some "tok" :=
  (c3_getXsrfToken_first_match _).2
    [{ name := "session", value := "s1", domain := ".curseforge.com", path := "/" }]
    { name := "Xsrf-Token", value := "tok", domain := ".curseforge.com", path := "/" }
    [{ name := "XSRF-TOKEN", value := "other", domain := ".curseforge.com", path := "/" }]
    rfl (by decide) (by decide)


/-- C4: `setCookies` (and `setCookiesFromString`) overwrite the session file
in full with the serialized Cookie Set before returning, creating the
containing directory if absent, and a process restart followed by `load`
reproduces exactly the same Cookie Set: all four fields of every entry and
the entry order round-trip through the persisted JSON. -/
theorem c4_persistence_roundTrip (st : WebClientState) (cookies : List CookieEntry)
    (raw : String) :
    (setCookies st cookies).sessionFile = some (serializeCookies cookies) ∧
    (setCookies st cookies).authDirExists = true ∧
    (setCookies st cookies).cookies = cookies ∧
    loadCookies (setCookies st cookies).sessionFile = cookies ∧
    (setCookiesFromStringState st raw).sessionFile =
      some (serializeCookies (setCookiesFromString raw)) ∧
    (setCookiesFromStringState st raw).authDirExists = true ∧
    loadCookies (setCookiesFromStringState st raw).sessionFile =
      setCookiesFromString raw := by
  refine ⟨rfl, rfl, rfl, ?_, rfl, rfl, ?_⟩
  · show loadCookies (some (serializeCookies cookies)) = cookies
    unfold loadCookies
    dsimp only
    rw [parse_serializeCookies]
    rfl
  · show loadCookies (some (serializeCookies (setCookiesFromString raw))) = _
    unfold loadCookies
    dsimp only
    rw [parse_serializeCookies]
    rfl

/-- C7: `load` never throws — a missing session file and a session file
whose contents fail to parse both initialize the in-memory Cookie Set to the
empty set (the model's totality is the absence of exceptions; the caught
`JSON.parse` failure is the `parseCookiesJson … = none` hypothesis). -/
theorem c7_load_missing_or_corrupt (s : String) (h : parseCookiesJson s = none) :
    loadCookies none = [] ∧ loadCookies (some s) = [] := by
  refine ⟨rfl, ?_⟩
  unfold loadCookies
  dsimp only
  rw [h]
  rfl

/-- Witness for C7: a concrete corrupt session file. -/
theorem c7_load_missing_or_corrupt_witness :
    parseCookiesJson "\x7bnot json" = none ∧ loadCookies (some "\x7bnot json") = [] :=
  ⟨by decide, (c7_load_missing_or_corrupt "\x7bnot json" (by decide)).2⟩

/-- Does this provider outcome make `extractCookies` fall through to the
next browser (it threw, or returned no cookies)? -/
def yieldsNoCookies : Except String (List CookieObject) → Bool
  | .error _ => true
  | .ok raw => raw.isEmpty

/-- C6: `autoExtract` (total, hence never throwing) queries the providers in
order, swallows per-browser failures, stops at the first browser with a
non-empty cookie list — adopting that browser's cookies, persisting them and
reporting its name and count — and when every browser throws or comes back
empty it returns the fixed descriptive failure string with the state
unchanged. -/
theorem c6_autoExtract_fallthrough (st : WebClientState)
    (pre rest : List (String × Except String (List CookieObject)))
    (name : String) (raw : List CookieObject)
    (hpre : ∀ b ∈ pre, yieldsNoCookies b.2 = true) (hraw : raw ≠ []) :
    extractFromBrowsers (pre ++ (name, .ok raw) :: rest) =
      { browser := name, cookies := toCookieEntries raw, error := none } ∧
    autoExtractCookies st (extractCookies true (pre ++ (name, .ok raw) :: rest)) =
      (saveCookies { st with cookies := toCookieEntries raw },
       "Extracted " ++ toString raw.length ++ " cookies from " ++ name) ∧
    (∀ bs, (∀ b ∈ bs, yieldsNoCookies b.2 = true) →
      extractFromBrowsers bs =
        { browser := "none", cookies := []
          error := some "No browser had curseforge.com cookies" } ∧
      autoExtractCookies st (extractCookies true bs) =
        (st, "No browser had curseforge.com cookies")) := by
  have hfirst : extractFromBrowsers (pre ++ (name, .ok raw) :: rest) =
      { browser := name, cookies := toCookieEntries raw, error := none } := by
    induction pre with
    | nil =>
        have hpos : 0 < raw.length := List.length_pos.mpr hraw
        simp [extractFromBrowsers, hpos]
    | cons b ps ih =>
        obtain ⟨nm, outcome⟩ := b
        have hb := hpre (nm, outcome) (List.mem_cons_self _ _)
        cases outcome with
        | error e =>
            simp only [List.cons_append, extractFromBrowsers]
            exact ih (fun q hq => hpre q (List.mem_cons_of_mem _ hq))
        | ok raw0 =>
            simp only [yieldsNoCookies, List.isEmpty_iff] at hb
            subst hb
            simp only [List.cons_append, extractFromBrowsers, List.length_nil,
              lt_irrefl, if_false]
            exact ih (fun q hq => hpre q (List.mem_cons_of_mem _ hq))
  have hall : ∀ bs, (∀ b ∈ bs, yieldsNoCookies b.2 = true) →
      extractFromBrowsers bs =
        { browser := "none", cookies := []
          error := some "No browser had curseforge.com cookies" } := by
    intro bs hbs
    induction bs with
    | nil => rfl
    | cons b ps ih =>
        obtain ⟨nm, outcome⟩ := b
        have hb := hbs (nm, outcome) (List.mem_cons_self _ _)
        cases outcome with
        | error e =>
            simp only [extractFromBrowsers]
            exact ih (fun q hq => hbs q (List.mem_cons_of_mem _ hq))
        | ok raw0 =>
            simp only [yieldsNoCookies, List.isEmpty_iff] at hb
            subst hb
            simp only [extractFromBrowsers, List.length_nil, lt_irrefl, if_false]
            exact ih (fun q hq => hbs q (List.mem_cons_of_mem _ hq))
  refine ⟨hfirst, ?_, fun bs hbs => ⟨hall bs hbs, ?_⟩⟩
  · show autoExtractCookies st (extractFromBrowsers (pre ++ (name, .ok raw) :: rest)) = _
    rw [hfirst]
    have hpos : 0 < (toCookieEntries raw).length := by
      simp [toCookieEntries, List.length_pos, hraw]
    unfold autoExtractCookies
    rw [if_pos hpos]
    have hlen : (toCookieEntries raw).length = raw.length := by
      simp [toCookieEntries]
    rw [hlen]
  · show autoExtractCookies st (extractFromBrowsers bs) = _
    rw [hall bs hbs]
    rfl

/-- A sample raw browser cookie for the C6 witness. -/
def demoCookieObj1 : CookieObject :=
  { name := "cf_session", value := "abc", domain := ".curseforge.com", path := "/"
    secure := true, httpOnly := true }

/-- A second sample raw browser cookie for the C6 witness. -/
def demoCookieObj2 : CookieObject :=
  { name := "XSRF-TOKEN", value := "tkn", domain := ".curseforge.com", path := "/"
    secure := true, httpOnly := false }

/-- An empty web-client state for witnesses. -/
def emptyWebState : WebClientState :=
  { cookies := [], sessionFile := none, authDirExists := false }

/-- Witness for C6: providers 1 and 2 throw, provider 3 returns two entries;
the result is provider 3's name with those two entries, and the reported
string carries the count and the browser name. -/
theorem c6_autoExtract_fallthrough_witness :
    extractFromBrowsers
      [("Chrome", .error "db locked"), ("Firefox", .error "not installed"),
       ("Edge", .ok [demoCookieObj1, demoCookieObj2])] =
      { browser := "Edge", cookies := toCookieEntries [demoCookieObj1, demoCookieObj2]
        error := none } ∧
    autoExtractCookies emptyWebState (extractCookies true
      [("Chrome", .error "db locked"), ("Firefox", .error "not installed"),
       ("Edge", .ok [demoCookieObj1, demoCookieObj2])]) =
      (saveCookies { emptyWebState with
        cookies := toCookieEntries [demoCookieObj1, demoCookieObj2] },
       "Extracted " ++ toString [demoCookieObj1, demoCookieObj2].length ++
         " cookies from " ++ "Edge") :=
  ⟨(c6_autoExtract_fallthrough emptyWebState
      [("Chrome", .error "db locked"), ("Firefox", .error "not installed")]
      [] "Edge" [demoCookieObj1, demoCookieObj2] (by decide) (by decide)).1,
   (c6_autoExtract_fallthrough emptyWebState
      [("Chrome", .error "db locked"), ("Firefox", .error "not installed")]
      [] "Edge" [demoCookieObj1, demoCookieObj2] (by decide) (by decide)).2.1⟩


/-- C5: every non-2xx response makes the web dispatcher fail with the
descriptive message carrying the numeric status code, the requested URL and
the response body truncated to 500 characters; the `get_comments` handler
receives that failure and converts it into a structured `error` result (one
request issued, nothing thrown past the tool boundary, never silently
swallowed). -/
theorem c5_non2xx_surfaced (url : String) (res : HttpResponse)
    (render : String → String) (modId page pageSize : Int)
    (cookies : List CookieEntry)
    (hres : responseOk res = false) (hcookies : hasCookies cookies = true) :
    webRequest url res = .error (httpErrorMessage url res) ∧
    (∃ p q, httpErrorMessage url res = p ++ toString res.status ++ q) ∧
    (∃ p q, httpErrorMessage url res = p ++ url ++ q) ∧
    (∃ p q, httpErrorMessage url res = p ++ jsTake 500 res.body ++ q) ∧
    (jsTake 500 res.body).length ≤ 500 ∧
    getCommentsTool render modId page pageSize cookies res =
      (error ("get_comments: " ++
        httpErrorMessage (commentsUrl modId page pageSize) res), 1) ∧
    (getCommentsTool render modId page pageSize cookies res).1.isError = true := by
  have hreq : ∀ u, webRequest u res = .error (httpErrorMessage u res) := by
    intro u
    unfold webRequest
    rw [if_pos hres]
  have hhandler : getCommentsTool render modId page pageSize cookies res =
      (error ("get_comments: " ++
        httpErrorMessage (commentsUrl modId page pageSize) res), 1) := by
    unfold getCommentsTool
    rw [if_neg (by simp [hcookies])]
    rw [hreq (commentsUrl modId page pageSize)]
  refine ⟨hreq url, ?_, ?_, ?_, ?_, hhandler, by rw [hhandler]; rfl⟩
  · refine ⟨"HTTP ", ": " ++ url ++
      (if res.body ≠ "" then "\n" ++ jsTake 500 res.body else ""), ?_⟩
    simp [httpErrorMessage, String.append_assoc]
  · refine ⟨"HTTP " ++ toString res.status ++ ": ",
      (if res.body ≠ "" then "\n" ++ jsTake 500 res.body else ""), ?_⟩
    simp [httpErrorMessage, String.append_assoc]
  · by_cases hb : res.body = ""
    · refine ⟨httpErrorMessage url res, "", ?_⟩
      have : jsTake 500 res.body = "" := by rw [hb]; rfl
      rw [this]
      simp
    · refine ⟨"HTTP " ++ toString res.status ++ ": " ++ url ++ "\n", "", ?_⟩
      simp [httpErrorMessage, hb, String.append_assoc]
  · show (String.mk (res.body.data.take 500)).length ≤ 500
    have : (String.mk (res.body.data.take 500)).length =
        (res.body.data.take 500).length := rfl
    rw [this, List.length_take]
    omega

/-- The 404 response of the C5 witness, with the body from the spec's test
vector. -/
def demo404 : HttpResponse :=
  { url := "https://www.curseforge.com/api/v1/mods/1/comments?index=0&pageSize=20"
    status := 404, contentType := "text/html", body := "<html>not found</html>" }

/-- A one-cookie session for witnesses. -/
def demoCookies : List CookieEntry :=
  [{ name := "cf_session", value := "abc", domain := ".curseforge.com", path := "/" }]

/-- Witness for C5 at HTTP 404 with body `"<html>not found</html>"`. -/
theorem c5_non2xx_surfaced_witness :
    webRequest "https://www.curseforge.com/x" demo404 =
      .error (httpErrorMessage "https://www.curseforge.com/x" demo404) ∧
    getCommentsTool id 1 1 20 demoCookies demo404 =
      (error ("get_comments: " ++ httpErrorMessage (commentsUrl 1 1 20) demo404), 1) :=
  ⟨(c5_non2xx_surfaced "https://www.curseforge.com/x" demo404 id 1 1 20 demoCookies
      (by decide) (by decide)).1,
   (c5_non2xx_surfaced "https://www.curseforge.com/x" demo404 id 1 1 20 demoCookies
      (by decide) (by decide)).2.2.2.2.2.1⟩

/-- A 600-character error body, longer than any truncation bound the sources
use. -/
def longErrorBody : String := String.mk (List.replicate 600 'x')

/-- The failing upload response of the C8 counterexample. -/
def uploadFail500 : HttpResponse :=
  { url := "https://www.curseforge.com/api/projects/1/upload-file"
    status := 500, contentType := "", body := longErrorBody }

/-- The failing game-versions response of the C8 counterexample. -/
def versionsFail500 : HttpResponse :=
  { url := "https://www.curseforge.com/api/game/versions"
    status := 500, contentType := "", body := "boom" }

set_option maxRecDepth 10000 in
/-- C8, counterexample to the claim as stated: `uploadFile`'s error embeds
the 600-character response body in full (no bounded excerpt), and the
game-version endpoints' errors carry no part of the body at all. -/
theorem c8_counterexample :
    uploadFileRun uploadFail500 =
      .error ("Upload failed (500): " ++ longErrorBody) ∧
    longErrorBody.length = 600 ∧
    ("Upload failed (500): " ++ longErrorBody).length = 621 ∧
    getGameVersionsRun versionsFail500 =
      .error "Upload API error 500 at https://www.curseforge.com/api/game/versions" ∧
    jsIncludes "Upload API error 500 at https://www.curseforge.com/api/game/versions"
      "boom" = false :=
  ⟨rfl, by decide, by decide, rfl, by decide⟩

/-- C8 (amended): on every non-2xx response the upload/author client
surfaces the status code — `uploadFile` appends the entire error body
(unbounded), the game-version endpoints report status and URL with no body
excerpt — and the multi-part file submission issues exactly one request,
never retried. -/
theorem c8_upload_error_surfacing (res : HttpResponse)
    (responses : Nat → HttpResponse) (h : responseOk res = false) :
    uploadFileRun res =
      .error ("Upload failed (" ++ toString res.status ++ "): " ++ res.body) ∧
    (∃ p q, ("Upload failed (" ++ toString res.status ++ "): " ++ res.body) =
      p ++ toString res.status ++ q) ∧
    getGameVersionsRun res =
      .error ("Upload API error " ++ toString res.status ++ " at " ++ res.url) ∧
    getGameVersionTypesRun res =
      .error ("Upload API error " ++ toString res.status ++ " at " ++ res.url) ∧
    uploadFileSession responses = (uploadFileRun (responses 0), 1) ∧
    (uploadFileSession responses).2 = 1 := by
  refine ⟨?_, ?_, ?_, ?_, rfl, rfl⟩
  · unfold uploadFileRun
    rw [if_pos h]
  · refine ⟨"Upload failed (", "): " ++ res.body, ?_⟩
    simp [String.append_assoc]
  · unfold getGameVersionsRun
    rw [if_pos h]
  · unfold getGameVersionTypesRun
    rw [if_pos h]

/-- Witness for C8 (amended) at the concrete 500 responses. -/
theorem c8_upload_error_surfacing_witness :
    uploadFileRun uploadFail500 =
      .error ("Upload failed (" ++ toString uploadFail500.status ++ "): " ++
        uploadFail500.body) ∧
    getGameVersionsRun versionsFail500 =
      .error ("Upload API error " ++ toString versionsFail500.status ++ " at " ++
        versionsFail500.url) :=
  ⟨(c8_upload_error_surfacing uploadFail500 (fun _ => uploadFail500) (by decide)).1,
   (c8_upload_error_surfacing versionsFail500 (fun _ => versionsFail500)
      (by decide)).2.2.1⟩

/-- C9 (implicit): with an empty Cookie Set every session-requiring web tool
(`get_comments`, `post_comment`, `delete_comment`, `get_project_settings`,
`update_project_description`) returns the structured no-session error
directing the user to obtain cookies and issues zero HTTP requests, while
the generic `cf_fetch_page` tool has no such guard and dispatches its one
request even with an empty Cookie Set. -/
theorem c9_empty_session_guards (render : String → String) (res : HttpResponse)
    (modId page pageSize commentId projectId replyTo : Int)
    (txt desc url : String) (method : HttpMethod) (body : Option String) :
    getCommentsTool render modId page pageSize [] res = (noSessionError, 0) ∧
    postCommentTool modId txt (some replyTo) [] res = (noSessionError, 0) ∧
    postCommentTool modId txt none [] res = (noSessionError, 0) ∧
    deleteCommentTool modId commentId [] res = (noSessionError, 0) ∧
    getProjectSettingsTool render projectId [] res = (noSessionError, 0) ∧
    updateProjectDescriptionTool projectId desc [] res = (noSessionError, 0) ∧
    noSessionError =
      error "No session cookies. Use cf_auto_extract_cookies first." ∧
    noSessionError.isError = true ∧
    (cfFetchPageTool render url method body [] res).2 = 1 := by
  refine ⟨rfl, rfl, rfl, rfl, rfl, rfl, rfl, rfl, ?_⟩
  unfold cfFetchPageTool
  dsimp only
  cases hw : webRequest (if jsStartsWith url "http" then url else CF_BASE ++ url)
      res <;> rfl

/-- C10 invariant: the launch counter never exceeds one, and is zero exactly
while the state machine is still uninitialized. -/
theorem browser_launch_invariant (evs : List BrowserEvent) (st : BrowserState)
    (h1 : st.phase = .uninitialized → st.launches = 0) (h2 : st.launches ≤ 1) :
    ((evs.foldl browserStep st).phase = .uninitialized →
      (evs.foldl browserStep st).launches = 0) ∧
    (evs.foldl browserStep st).launches ≤ 1 := by
  induction evs generalizing st with
  | nil => exact ⟨h1, h2⟩
  | cons ev rest ih =>
      apply ih
      · obtain ⟨ph, ln⟩ := st
        cases ph <;> cases ev <;>
          simp_all [browserStep, ensureLaunched, launchCompleted]
      · obtain ⟨ph, ln⟩ := st
        cases ph <;> cases ev <;>
          simp_all [browserStep, ensureLaunched, launchCompleted]

/-- C10 (modelled from the spec: `browser-client.ts` is absent from the
sources, so the launch coalescing is embedded from §4.3/§5 of the spec):
over every interleaving of first-use requests and launch completions at most
one browser launch ever occurs, and in particular two concurrent first-use
callers — two requests arriving before the launch completes — leave the
launch-attempt counter at exactly 1, as does any later use after
completion. -/
theorem c10_launch_coalescing (events : List BrowserEvent) :
    (runBrowser events).launches ≤ 1 ∧
    (runBrowser [.request, .request]).launches = 1 ∧
    (runBrowser [.request, .request, .complete, .request]).launches = 1 :=
  ⟨(browser_launch_invariant events initialBrowserState (fun _ => rfl)
      (by decide)).2,
   by decide, by decide⟩

end CurseforgeMcp
